import Mathlib

/-!
Verification of the business-lab Azure Functions app (`function_app.py`):
a shallow embedding of its four HTTP handlers and of the narrow interfaces
of their external collaborators (blob store, pandas, PyMuPDF, Whisper),
together with theorems settling the specification's claims.
-/

set_option autoImplicit false

namespace BizzLab

/-- An HTTP response as produced by `func.HttpResponse(body, status_code=...)`. -/
structure HttpResponse where
  body : String
  status : Nat
deriving Repr, DecidableEq

/-- Observable resource/effect state left behind by one `get_file_context`
request: whether a blob client was constructed, how many blob downloads were
attempted, how many PyMuPDF document handles remain open at return, and how
many temporary audio files remain on disk at return. -/
structure ResState where
  clientConstructed : Bool
  downloads : Nat
  openDocs : Nat
  tempFiles : Nat
deriving Repr, DecidableEq

/-! ### Python string primitives

`str.split()` (no argument) splits on runs of whitespace and drops empty
pieces; `sep.join(xs)` interleaves `sep`; `str.endswith(suffix)` is a
case-sensitive suffix test.  They are embedded structurally over `.data`
so that they compute by kernel reduction. -/

/-- Words completed while scanning a character list, with `cur` the reversed
pending partial word (helper for the embedding of Python `str.split()`). -/
def wordsDone : List Char → List Char → List (List Char)
  | [], _ => []
  | c :: cs, cur =>
    if c.isWhitespace then
      if cur = [] then wordsDone cs [] else cur.reverse :: wordsDone cs []
    else wordsDone cs (c :: cur)

/-- The reversed pending partial word after scanning a character list. -/
def pendAux : List Char → List Char → List Char
  | [], cur => cur
  | c :: cs, cur => if c.isWhitespace then pendAux cs [] else pendAux cs (c :: cur)

/-- Whitespace splitting of a character list, carried out with a reversed
pending-word accumulator `cur`: the embedding of Python `str.split()`. -/
def wordsAux : List Char → List Char → List (List Char)
  | [], cur => if cur = [] then [] else [cur.reverse]
  | c :: cs, cur =>
    if c.isWhitespace then
      if cur = [] then wordsAux cs [] else cur.reverse :: wordsAux cs []
    else wordsAux cs (c :: cur)

/-- Python `s.split()`: the whitespace-delimited words of `s`, no empties. -/
def pyWords (s : String) : List String :=
  (wordsAux s.data []).map (fun w => String.mk w)

/-- The whitespace-delimited word count of a string (`len(s.split())`). -/
def wordCount (s : String) : Nat := (pyWords s).length

/-- Python `sep.join(xs)`. -/
def joinSep (sep : String) : List String → String
  | [] => ""
  | [s] => s
  | s :: ss => s ++ sep ++ joinSep sep ss

/-- Python `s.endswith(suffix)`: case-sensitive suffix match. -/
def pyEndsWith (s suffix : String) : Bool :=
  suffix.data.isSuffixOf s.data

/-! ### JSON serialization (the fragment of `json.dumps` the app uses) -/

/-- One character of `json.dumps` string escaping (default `ensure_ascii`).
Only the ASCII fragment matters for this app's outputs. -/
def escapeChar (c : Char) : String :=
  if c = '"' then "\\\""
  else if c = '\\' then "\\\\"
  else if c = '\n' then "\\n"
  else if c = '\t' then "\\t"
  else if c = '\r' then "\\r"
  else String.mk [c]

/-- `json.dumps` of a Python string: quoted, characters escaped. -/
def jsonDumpsStr (s : String) : String :=
  "\"" ++ String.join (s.data.map escapeChar) ++ "\""

/-- The item lines of `json.dumps(list, indent=4)`: each name indented four
spaces, every item but the last followed by a comma. -/
def jsonArrayLines : List String → List String
  | [] => []
  | [n] => ["    " ++ jsonDumpsStr n]
  | n :: ns => ("    " ++ jsonDumpsStr n ++ ",") :: jsonArrayLines ns

/-- `json.dumps(names, indent=4, sort_keys=True)` for a list of strings.
`sort_keys` orders the keys of JSON objects only; a JSON array is emitted in
list order, so it does not appear here. -/
def jsonDumpsStringList (ns : List String) : String :=
  match ns with
  | [] => "[]"
  | _ => joinSep "\n" ("[" :: (jsonArrayLines ns ++ ["]"]))

/-- Modelled from the spec: the canonical `\x7b"content": <string>\x7d`
response envelope that §4.2 describes (`json.dumps(\x7b"content": s\x7d)`),
used only as the comparison point for the envelope claim; the code under
`src/` does not build it. -/
def jsonObjectContent (s : String) : String :=
  "\x7b\"content\": " ++ jsonDumpsStr s ++ "\x7d"

/-! ### pandas model (the fragment the CSV strategy uses)

`pd.read_csv` is modelled as: split the decoded blob into lines, skip blank
lines, the first line is the header, commas delimit cells, cells kept as raw
strings; an input with no data raises (`EmptyDataError`).  `head(n)` keeps
the first `n` data rows.  `to_string(index=False)` right-justifies every
cell to its column's width (the max width over header and cells) and joins
cells with one space and rows with newlines — no row-index column. -/

/-- A parsed tabular frame: header cells and data rows of cells. -/
structure DataFrame where
  header : List String
  rows : List (List String)
deriving Repr, DecidableEq

/-- Split a character list at newline characters (keeping empty pieces). -/
def splitLinesAux : List Char → List Char → List String
  | [], cur => [String.mk cur.reverse]
  | c :: cs, cur =>
    if c = '\n' then String.mk cur.reverse :: splitLinesAux cs []
    else splitLinesAux cs (c :: cur)

/-- Split a character list at commas (keeping empty pieces). -/
def splitCommaAux : List Char → List Char → List String
  | [], cur => [String.mk cur.reverse]
  | c :: cs, cur =>
    if c = ',' then String.mk cur.reverse :: splitCommaAux cs []
    else splitCommaAux cs (c :: cur)

/-- The comma-separated cells of one CSV line. -/
def csvCells (line : String) : List String := splitCommaAux line.data []

/-- `pd.read_csv(StringIO(blob_data))`: header + data rows, or
`EmptyDataError` when no non-blank line exists. -/
def read_csv (s : String) : Except String DataFrame :=
  match (splitLinesAux s.data []).filter (fun l => l ≠ "") with
  | [] => .error "No columns to parse from file"
  | h :: t => .ok ⟨csvCells h, t.map csvCells⟩

/-- `df.head(n)`: the frame restricted to its first `n` data rows. -/
def DataFrame.head (df : DataFrame) (n : Nat) : DataFrame :=
  ⟨df.header, df.rows.take n⟩

/-- Right-justify a cell to width `w` with spaces (Python `str.rjust`). -/
def rjust (w : Nat) (s : String) : String :=
  String.mk (List.replicate (w - s.length) ' ') ++ s

/-- Per-column render widths: for column `j`, the max length over the
header cell and every row's cell in that column. -/
def colWidths (df : DataFrame) : List Nat :=
  (List.range df.header.length).map (fun j =>
    df.rows.foldr (fun r m => max ((r.getD j "").length) m)
      (df.header.getD j "").length)

/-- One rendered table line: the row's cells right-justified to the column
widths, joined with single spaces.  There is no row-index cell. -/
def renderRow (ws : List Nat) (r : List String) : String :=
  joinSep " " (List.zipWith rjust ws r)

/-- The lines of `df.to_string(index=False)`: the rendered header line
followed by one rendered line per data row. -/
def to_string_lines (df : DataFrame) : List String :=
  renderRow (colWidths df) df.header :: df.rows.map (renderRow (colWidths df))

/-- `df.to_string(index=False)`: the rendered lines joined with newlines. -/
def to_string_noindex (df : DataFrame) : String :=
  joinSep "\n" (to_string_lines df)

/-- The common width of every rendered line of an all-`n`-column frame. -/
def tableWidth (df : DataFrame) : Nat :=
  (colWidths df).foldr (· + ·) 0 + ((colWidths df).length - 1)

/-- The CSV strategy of `get_file_context` applied to the decoded blob text:
`pd.read_csv(StringIO(blob_data)).head(600).to_string(index=False)`,
propagating any parse exception. -/
def csv_strategy (s : String) : Except String String :=
  (read_csv s).map (fun df => to_string_noindex (df.head 600))

/-! ### PDF strategy -/

/-- The concatenation of a list of page texts: the document's total text
(`full_text` when the loop runs to completion). -/
def strJoin (ps : List String) : String := ps.foldr (· ++ ·) ""

/-- The page-accumulation loop of the PDF branch on a document whose page
extractions all succeed: add each page's text in order and break as soon
as the accumulated text's word count exceeds 5000 (checked after each
page). -/
def pdfAccum : List String → String → String
  | [], acc => acc
  | t :: ps, acc =>
    let acc2 := acc ++ t
    if 5000 < wordCount acc2 then acc2 else pdfAccum ps acc2

/-- The page-accumulation loop as executed: `doc[i].get_text()` may raise,
which aborts the loop and propagates (`.error`). -/
def pdfAccumE : List (Except String String) → String → Except String String
  | [], acc => .ok acc
  | p :: ps, acc =>
    match p with
    | .error e => .error e
    | .ok t =>
      let acc2 := acc ++ t
      if 5000 < wordCount acc2 then .ok acc2 else pdfAccumE ps acc2

/-- The PDF strategy on a document with page texts `pages` (all extractions
succeeding): run the accumulation loop from the empty string, split the
accumulated text into words, keep the first 5000 and rejoin with single
spaces (`' '.join(full_text.split()[:5000])`). -/
def pdf_strategy (pages : List String) : String :=
  joinSep " " ((pyWords (pdfAccum pages "")).take 5000)

/-! ### `get_file_context` -/

/-- The external collaborators of one `get_file_context` request, keyed by
blob name where the code passes one.  `downloadText` is
`download_blob().content_as_text()` (covering decode failures),
`downloadBytes` is `download_blob().readall()`, `openPdf` is
`fitz.open(stream=..., filetype="pdf")` returning the document as its list
of per-page `get_text()` outcomes, and `transcribe` is the Whisper "base"
model applied to a file holding the given bytes. -/
structure Env where
  downloadText : String → Except String String
  downloadBytes : String → Except String (List Nat)
  openPdf : List Nat → Except String (List (Except String String))
  transcribe : List Nat → Except String String

/-- Response for a missing `file` query parameter. -/
def respMissing : HttpResponse := ⟨"File name parameter is missing.", 400⟩

/-- Response for an unrecognized file extension. -/
def respUnsupported : HttpResponse := ⟨"Unsupported file type.", 403⟩

/-- Response from the dispatcher's catch-all `except Exception as e`. -/
def resp500 (e : String) : HttpResponse := ⟨"Error: " ++ e, 500⟩

/-- Successful response: `json.dumps(context_data)` — the bare JSON-encoded
string — with status 200. -/
def respOk (context_data : String) : HttpResponse :=
  ⟨jsonDumpsStr context_data, 200⟩

/-- The `get_file_context` handler.  `file` is `req.params.get('file')`
(`none` when absent).  The pair's second component is the final resource
state: the blob client is constructed before dispatch; on the PDF branch the
document handle is closed only after a fully successful page loop
(`doc.close()` is skipped when `get_text` raises); on the audio branch the
temporary file is created with `delete=False` and removed only after a
successful transcription (`os.remove` is skipped when the download or the
transcription raises). -/
def get_file_context (file : Option String) (env : Env) :
    HttpResponse × ResState :=
  match file with
  | none => (respMissing, ⟨false, 0, 0, 0⟩)
  | some file_name =>
    if file_name = "" then (respMissing, ⟨false, 0, 0, 0⟩)
    else if pyEndsWith file_name ".csv" then
      match env.downloadText file_name with
      | .error e => (resp500 e, ⟨true, 1, 0, 0⟩)
      | .ok blob_data =>
        match read_csv blob_data with
        | .error e => (resp500 e, ⟨true, 1, 0, 0⟩)
        | .ok csv_data =>
          (respOk (to_string_noindex (csv_data.head 600)), ⟨true, 1, 0, 0⟩)
    else if pyEndsWith file_name ".pdf" then
      match env.downloadBytes file_name with
      | .error e => (resp500 e, ⟨true, 1, 0, 0⟩)
      | .ok blob_pdf_data =>
        match env.openPdf blob_pdf_data with
        | .error e => (resp500 e, ⟨true, 1, 0, 0⟩)
        | .ok doc =>
          match pdfAccumE doc "" with
          | .error e => (resp500 e, ⟨true, 1, 1, 0⟩)
          | .ok full_text =>
            (respOk (joinSep " " ((pyWords full_text).take 5000)),
              ⟨true, 1, 0, 0⟩)
    else if pyEndsWith file_name ".mp3" || pyEndsWith file_name ".wav" then
      match env.downloadBytes file_name with
      | .error e => (resp500 e, ⟨true, 1, 0, 1⟩)
      | .ok audio_bytes =>
        match env.transcribe audio_bytes with
        | .error e => (resp500 e, ⟨true, 1, 0, 1⟩)
        | .ok transcription => (respOk transcription, ⟨true, 1, 0, 0⟩)
    else (respUnsupported, ⟨true, 0, 0, 0⟩)

/-! ### `bizz_lab_func` -/

/-- Python truthiness of `req.params.get('name')` / `req_body.get('name')`:
`None` and the empty string are falsy. -/
def truthy : Option String → Bool
  | none => false
  | some s => !(s = "")

/-- The `bizz_lab_func` greeting handler.  `params_name` is
`req.params.get('name')`; `body` is the outcome of `req.get_json()`
projected to its `'name'` field — `.error` when parsing raises
`ValueError` (in which case `pass` leaves `name` untouched). -/
def bizz_lab_func (params_name : Option String)
    (body : Except Unit (Option String)) : HttpResponse :=
  let name := params_name
  let name :=
    if truthy name then name
    else match body with
      | .error _ => name
      | .ok body_name => body_name
  match name with
  | some n =>
    if n = "" then
      ⟨"This HTTP triggered function executed successfully. Pass a name in the query string or in the request body for a personalized response.", 200⟩
    else
      ⟨"Hello, " ++ n ++ ". This HTTP triggered function executed successfully.", 200⟩
  | none =>
    ⟨"This HTTP triggered function executed successfully. Pass a name in the query string or in the request body for a personalized response.", 200⟩

/-! ### Concrete environments for witnesses and counterexamples -/

/-- An environment in which every collaborator call raises. -/
def envAllFail : Env :=
  ⟨fun _ => .error "fail", fun _ => .error "fail",
   fun _ => .error "fail", fun _ => .error "fail"⟩

/-- An environment whose text download yields the given CSV text. -/
def envCsv (s : String) : Env :=
  ⟨fun _ => .ok s, fun _ => .error "fail",
   fun _ => .error "fail", fun _ => .error "fail"⟩

/-- An environment whose byte download succeeds and whose PDF document has
the given page texts, all extracting successfully. -/
def envPdf (pages : List String) : Env :=
  ⟨fun _ => .error "fail", fun _ => .ok [],
   fun _ => .ok (pages.map Except.ok), fun _ => .error "fail"⟩

/-- An environment whose PDF document's first page extraction raises. -/
def envPdfPageFail : Env :=
  ⟨fun _ => .error "fail", fun _ => .ok [],
   fun _ => .ok [Except.error "page boom"], fun _ => .error "fail"⟩

/-- An environment whose byte download succeeds but whose transcription
raises. -/
def envAudioFail : Env :=
  ⟨fun _ => .error "fail", fun _ => .ok [1, 2],
   fun _ => .error "fail", fun _ => .error "transcribe boom"⟩

/-- An environment whose byte download and transcription both succeed. -/
def envAudioOk : Env :=
  ⟨fun _ => .error "fail", fun _ => .ok [1, 2],
   fun _ => .error "fail", fun _ => .ok "hello there"⟩

/-! ### `get_files_list` -/

/-- The `get_files_list` handler.  The store's enumeration is abstracted as
an `Except`: `.ok names` is the list of blob names in the order
`container_client.list_blobs()` yields them, `.error e` any raised
store-access exception.  The body mirrors
`json.dumps(files_list, indent=4, sort_keys=True)` on success and
`f"Error: \x7be\x7d"` with status 500 on failure. -/
def get_files_list (blobs : Except String (List String)) : HttpResponse :=
  match blobs with
  | .ok blob_list => ⟨jsonDumpsStringList blob_list, 200⟩
  | .error e => ⟨"Error: " ++ e, 500⟩

/-! ## Helper lemmas: Python word splitting -/

/-- Scanning `a ++ b` yields the words completed inside `a` followed by the
scan of `b` started from the pending word `a` leaves behind. -/
theorem wordsAux_append (b : List Char) : ∀ (a cur : List Char),
    wordsAux (a ++ b) cur = wordsDone a cur ++ wordsAux b (pendAux a cur)
  | [], cur => by simp [wordsDone, pendAux]
  | c :: cs, cur => by
    by_cases hw : c.isWhitespace
    · by_cases hc : cur = []
      · simp [wordsAux, wordsDone, pendAux, hw, hc, wordsAux_append b cs []]
      · simp [wordsAux, wordsDone, pendAux, hw, hc, wordsAux_append b cs []]
    · simp [wordsAux, wordsDone, pendAux, hw, wordsAux_append b cs (c :: cur)]

/-- A scan is its completed words plus the flush of its pending word. -/
theorem wordsAux_eq_done : ∀ (a cur : List Char),
    wordsAux a cur = wordsDone a cur ++
      (if pendAux a cur = [] then [] else [(pendAux a cur).reverse])
  | [], cur => by
    by_cases hc : cur = [] <;> simp [wordsAux, wordsDone, pendAux, hc]
  | c :: cs, cur => by
    by_cases hw : c.isWhitespace
    · by_cases hc : cur = []
      · simp [wordsAux, wordsDone, pendAux, hw, hc, wordsAux_eq_done cs []]
      · simp [wordsAux, wordsDone, pendAux, hw, hc, wordsAux_eq_done cs []]
    · simp [wordsAux, wordsDone, pendAux, hw, wordsAux_eq_done cs (c :: cur)]

/-- A scan started with a nonempty pending word yields at least one word. -/
theorem wordsAux_ne_nil : ∀ (b p : List Char), p ≠ [] → wordsAux b p ≠ []
  | [], p, hp => by simp [wordsAux, hp]
  | c :: cs, p, hp => by
    by_cases hw : c.isWhitespace
    · simp [wordsAux, hw, hp]
    · simpa [wordsAux, hw] using wordsAux_ne_nil cs (c :: p) (by simp)

/-- A scan whose pending word ends empty is exactly its completed words. -/
theorem wordsAux_of_pend_nil (a cur : List Char) (hp : pendAux a cur = []) :
    wordsAux a cur = wordsDone a cur := by
  rw [wordsAux_eq_done a cur, hp, if_pos rfl, List.append_nil]

/-- A scan whose pending word ends nonempty is its completed words followed
by that pending word. -/
theorem wordsAux_of_pend_ne (a cur : List Char) (hp : pendAux a cur ≠ []) :
    wordsAux a cur = wordsDone a cur ++ [(pendAux a cur).reverse] := by
  rw [wordsAux_eq_done a cur, if_neg hp]

/-- All words of `a` except possibly its last survive unchanged at the
front of the word list of `a ++ b` (the last may merge with `b`'s start). -/
theorem wordsAux_dropLast_front (a b : List Char) :
    (wordsAux a []).dropLast <+: wordsAux (a ++ b) [] := by
  rw [wordsAux_append b a []]
  by_cases hp : pendAux a [] = []
  · rw [wordsAux_of_pend_nil a [] hp]
    have hd : (wordsDone a []).dropLast <+: wordsDone a [] := List.dropLast_prefix _
    exact hd.trans (List.prefix_append _ _)
  · rw [wordsAux_of_pend_ne a [] hp, List.dropLast_concat]
    exact List.prefix_append _ _

/-- Appending text never decreases the word count. -/
theorem length_wordsAux_append_le (a b : List Char) :
    (wordsAux a []).length ≤ (wordsAux (a ++ b) []).length := by
  rw [wordsAux_append b a []]
  by_cases hp : pendAux a [] = []
  · rw [wordsAux_of_pend_nil a [] hp]
    simp only [List.length_append]
    exact Nat.le_add_right _ _
  · rw [wordsAux_of_pend_ne a [] hp]
    simp only [List.length_append, List.length_singleton]
    exact Nat.add_le_add_left
      (List.length_pos.mpr (wordsAux_ne_nil b _ (by simpa using hp))) _

/-- String-level form of `wordsAux_dropLast_front`. -/
theorem pyWords_dropLast_front (a b : String) :
    (pyWords a).dropLast <+: pyWords (a ++ b) := by
  unfold pyWords
  rw [String.data_append, ← List.map_dropLast]
  exact (wordsAux_dropLast_front a.data b.data).map _

/-- String-level monotonicity of the word count under append. -/
theorem wordCount_append_le (a b : String) :
    wordCount a ≤ wordCount (a ++ b) := by
  unfold wordCount pyWords
  rw [String.data_append]
  simpa using length_wordsAux_append_le a.data b.data

/-! ## Helper lemmas: string concatenation -/

/-- `strJoin` distributes over list append. -/
theorem strJoin_append : ∀ (l₁ l₂ : List String),
    strJoin (l₁ ++ l₂) = strJoin l₁ ++ strJoin l₂
  | [], l₂ => by simp [strJoin]
  | s :: l₁, l₂ => by
    simp only [strJoin, List.cons_append, List.foldr_cons]
    rw [show List.foldr (· ++ ·) "" (l₁ ++ l₂) = strJoin (l₁ ++ l₂) from rfl,
      strJoin_append l₁ l₂, strJoin, strJoin, String.append_assoc]

/-! ## Helper lemmas: the PDF accumulation loop -/

/-- On a document whose page extractions all succeed, the executed loop
returns exactly what the pure loop computes. -/
theorem pdfAccumE_map_ok : ∀ (ps : List String) (acc : String),
    pdfAccumE (ps.map Except.ok) acc = .ok (pdfAccum ps acc)
  | [], acc => rfl
  | t :: ps, acc => by
    simp only [List.map_cons, pdfAccumE, pdfAccum]
    by_cases h : 5000 < wordCount (acc ++ t)
    · simp [h]
    · simp [h, pdfAccumE_map_ok ps (acc ++ t)]

/-- The loop invariant: starting from an accumulator of at most 5000 words,
the loop consumes some prefix of `k` pages, every proper prefix of which
kept the word count at or under 5000, and — when it stopped early — the
`k`-th page pushed the count over 5000. -/
theorem pdfAccum_spec : ∀ (ps : List String) (acc : String),
    wordCount acc ≤ 5000 →
    ∃ k, k ≤ ps.length ∧ pdfAccum ps acc = acc ++ strJoin (ps.take k) ∧
      (∀ j, j < k → wordCount (acc ++ strJoin (ps.take j)) ≤ 5000) ∧
      (k < ps.length → 5000 < wordCount (acc ++ strJoin (ps.take k)))
  | [], acc, _ => by
    refine ⟨0, Nat.le_refl 0, ?_, ?_, ?_⟩
    · simp [pdfAccum, strJoin, String.append_empty]
    · intro j hj; omega
    · intro h; simp at h
  | t :: ps, acc, hacc => by
    by_cases hbreak : 5000 < wordCount (acc ++ t)
    · refine ⟨1, by simp, ?_, ?_, ?_⟩
      · simp [pdfAccum, hbreak, strJoin, String.append_empty]
      · intro j hj
        interval_cases j
        simpa [strJoin, String.append_empty] using hacc
      · intro _
        simpa [strJoin, String.append_empty] using hbreak
    · have hle : wordCount (acc ++ t) ≤ 5000 := Nat.le_of_not_lt hbreak
      obtain ⟨k, hk, heq, hsmall, hbig⟩ := pdfAccum_spec ps (acc ++ t) hle
      refine ⟨k + 1, by simpa using Nat.succ_le_succ hk, ?_, ?_, ?_⟩
      · simpa [pdfAccum, hbreak, List.take_succ_cons, strJoin,
          String.append_assoc] using heq
      · intro j hj
        cases j with
        | zero => simpa [strJoin, String.append_empty] using hacc
        | succ j =>
          have := hsmall j (Nat.lt_of_succ_lt_succ hj)
          simpa [List.take_succ_cons, strJoin, String.append_assoc] using this
      · intro hlt
        have := hbig (Nat.lt_of_succ_lt_succ hlt)
        simpa [List.take_succ_cons, strJoin, String.append_assoc] using this

/-- Once a prefix of the text already holds more than 5000 words, its first
5000 words are the first 5000 words of any extension of it. -/
theorem take_words_stable (a b : String) (h : 5000 < wordCount a) :
    (pyWords (a ++ b)).take 5000 = (pyWords a).take 5000 := by
  obtain ⟨t, ht⟩ := pyWords_dropLast_front a b
  have hlen : 5000 ≤ (pyWords a).dropLast.length := by
    rw [List.length_dropLast]
    unfold wordCount at h
    omega
  rw [← ht, List.take_append_of_le_length hlen, List.dropLast_eq_take,
    List.take_take]
  congr 1
  unfold wordCount at h
  omega

/-! ## Claim theorems -/

/-- C5: the PDF strategy accumulates page text in page order and stops only
after the page whose addition pushes the whitespace-delimited word count
over 5000 (every earlier prefix stays at or under 5000); it returns the
full text word-joined when the document's total text is under 5000 words,
and otherwise exactly the first 5000 whitespace-delimited words of the
total text rejoined with single spaces; the executed loop agrees with the
pure one on an all-successful document, and the handler serializes exactly
the strategy's output. -/
theorem pdf_strategy_truncation (pages : List String) :
    (∃ k, k ≤ pages.length ∧ pdfAccum pages "" = strJoin (pages.take k) ∧
      (∀ j, j < k → wordCount (strJoin (pages.take j)) ≤ 5000) ∧
      (k < pages.length → 5000 < wordCount (strJoin (pages.take k)))) ∧
    (wordCount (strJoin pages) < 5000 →
      pdf_strategy pages = joinSep " " (pyWords (strJoin pages))) ∧
    (5000 ≤ wordCount (strJoin pages) →
      pdf_strategy pages = joinSep " " ((pyWords (strJoin pages)).take 5000)) ∧
    pdfAccumE (pages.map Except.ok) "" = .ok (pdfAccum pages "") ∧
    (get_file_context (some "f.pdf") (envPdf pages)).1 =
      respOk (pdf_strategy pages) := by
  have h0 : wordCount "" ≤ 5000 := by decide
  obtain ⟨k, hk, heq, hsmall, hbig⟩ := pdfAccum_spec pages "" h0
  rw [String.empty_append] at heq
  have hsmall2 : ∀ j, j < k → wordCount (strJoin (pages.take j)) ≤ 5000 := by
    intro j hj
    have := hsmall j hj
    rwa [String.empty_append] at this
  have hbig2 : k < pages.length → 5000 < wordCount (strJoin (pages.take k)) := by
    intro h
    have := hbig h
    rwa [String.empty_append] at this
  refine ⟨⟨k, hk, heq, hsmall2, hbig2⟩, ?_, ?_, pdfAccumE_map_ok pages "", ?_⟩
  · intro hlt
    have hkeq : k = pages.length := by
      by_contra hne
      have hklt : k < pages.length := Nat.lt_of_le_of_ne hk hne
      have h1 := hbig2 hklt
      have h2 : wordCount (strJoin (pages.take k)) ≤ wordCount (strJoin pages) := by
        conv_rhs => rw [← List.take_append_drop k pages]
        rw [strJoin_append]
        exact wordCount_append_le _ _
      omega
    unfold pdf_strategy
    rw [heq, hkeq, List.take_length]
    congr 1
    exact List.take_of_length_le (Nat.le_of_lt hlt)
  · intro hge
    rcases Nat.lt_or_ge k pages.length with hklt | hkge
    · have hb := hbig2 hklt
      unfold pdf_strategy
      rw [heq]
      conv_rhs => rw [← List.take_append_drop k pages]
      rw [strJoin_append, take_words_stable _ _ hb]
    · have hkeq : k = pages.length := Nat.le_antisymm hk hkge
      unfold pdf_strategy
      rw [heq, hkeq, List.take_length]
  · have hstep : get_file_context (some "f.pdf") (envPdf pages)
        = (match pdfAccumE (pages.map Except.ok) "" with
           | .error e => (resp500 e, ⟨true, 1, 1, 0⟩)
           | .ok full_text =>
             (respOk (joinSep " " ((pyWords full_text).take 5000)),
               ⟨true, 1, 0, 0⟩)) := rfl
    rw [hstep, pdfAccumE_map_ok pages ""]
    rfl

/-- C5 witness: a two-page document totalling three words is returned in
full, word-joined. -/
theorem pdf_strategy_truncation_witness :
    wordCount (strJoin ["a b ", "c"]) < 5000 ∧
    pdf_strategy ["a b ", "c"] = joinSep " " (pyWords (strJoin ["a b ", "c"])) :=
  ⟨by decide, (pdf_strategy_truncation ["a b ", "c"]).2.1 (by decide)⟩

/-! ## Helper lemmas: table rendering -/

/-- Length of a space-joined nonempty list: the cell lengths plus one
separator between consecutive cells. -/
theorem joinSp_length : ∀ (xs : List String), xs ≠ [] →
    (joinSep " " xs).length =
      (xs.map String.length).foldr (· + ·) 0 + (xs.length - 1)
  | [], h => absurd rfl h
  | [x], _ => by simp [joinSep]
  | x :: y :: ys, _ => by
    have ih := joinSp_length (y :: ys) (by simp)
    have hstep : joinSep " " (x :: y :: ys) = x ++ " " ++ joinSep " " (y :: ys) :=
      rfl
    have hsp : (" " : String).length = 1 := rfl
    rw [hstep, String.length_append, String.length_append, hsp,
      List.map_cons, List.foldr_cons]
    simp only [List.length_cons] at *
    omega

/-- A cell no longer than its column width pads to exactly that width. -/
theorem rjust_length (w : Nat) (s : String) (h : s.length ≤ w) :
    (rjust w s).length = w := by
  unfold rjust
  rw [String.length_append, String.length_mk, List.length_replicate]
  omega

/-- When every cell fits its column width, the padded cells have exactly
the column widths as lengths. -/
theorem zipWith_rjust_lengths : ∀ (ws : List Nat) (r : List String),
    ws.length = r.length →
    (∀ j, j < ws.length → (r.getD j "").length ≤ ws.getD j 0) →
    (List.zipWith rjust ws r).map String.length = ws
  | [], [], _, _ => rfl
  | [], _ :: _, h, _ => by simp at h
  | _ :: _, [], h, _ => by simp at h
  | w :: ws, s :: r, h, hb => by
    simp only [List.zipWith_cons_cons, List.map_cons]
    have h0 := hb 0 (by simp)
    simp only [List.getD_cons_zero] at h0
    rw [rjust_length w s h0]
    congr 1
    refine zipWith_rjust_lengths ws r (by simpa using h) ?_
    intro j hj
    have := hb (j + 1) (by simpa using Nat.succ_lt_succ hj)
    simpa [List.getD_cons_succ] using this

/-- Length of one rendered line: the sum of the column widths plus one
separator between consecutive columns. -/
theorem renderRow_length (ws : List Nat) (r : List String)
    (hne : ws ≠ []) (hlen : ws.length = r.length)
    (hb : ∀ j, j < ws.length → (r.getD j "").length ≤ ws.getD j 0) :
    (renderRow ws r).length = ws.foldr (· + ·) 0 + (ws.length - 1) := by
  unfold renderRow
  have hzne : List.zipWith rjust ws r ≠ [] := by
    cases ws with
    | nil => exact absurd rfl hne
    | cons w ws =>
      cases r with
      | nil => simp at hlen
      | cons s r => simp [List.zipWith_cons_cons]
  rw [joinSp_length _ hzne, zipWith_rjust_lengths ws r hlen hb,
    List.length_zipWith, hlen, Nat.min_self]

/-- There is one column width per header cell. -/
theorem colWidths_length (df : DataFrame) :
    (colWidths df).length = df.header.length := by
  unfold colWidths
  rw [List.length_map, List.length_range]

/-- The base of the running column-width maximum bounds the result. -/
theorem le_foldr_max_base (g : List String → Nat) :
    ∀ (l : List (List String)) (b : Nat),
      b ≤ l.foldr (fun r m => max (g r) m) b
  | [], b => Nat.le_refl b
  | _ :: l, b => Nat.le_trans (le_foldr_max_base g l b) (Nat.le_max_right _ _)

/-- Every participant of the running column-width maximum is bounded by the
result. -/
theorem mem_le_foldr_max (g : List String → Nat) :
    ∀ (l : List (List String)) (b : Nat) (r : List String), r ∈ l →
      g r ≤ l.foldr (fun r m => max (g r) m) b
  | [], _, _, h => absurd h (List.not_mem_nil _)
  | x :: l, b, r, h => by
    rcases List.mem_cons.mp h with rfl | h
    · exact Nat.le_max_left _ _
    · exact Nat.le_trans (mem_le_foldr_max g l b r h) (Nat.le_max_right _ _)

/-- The `j`-th column width unfolded. -/
theorem colWidths_getD (df : DataFrame) (j : Nat) (hj : j < df.header.length) :
    (colWidths df).getD j 0 =
      df.rows.foldr (fun r m => max ((r.getD j "").length) m)
        (df.header.getD j "").length := by
  unfold colWidths
  rw [List.getD_eq_getElem _ _ (by simpa using hj)]
  simp [List.getElem_map, List.getElem_range]

/-- Each header cell fits its column width. -/
theorem header_le_colWidths (df : DataFrame) (j : Nat)
    (hj : j < df.header.length) :
    (df.header.getD j "").length ≤ (colWidths df).getD j 0 := by
  rw [colWidths_getD df j hj]
  exact le_foldr_max_base (fun r => (r.getD j "").length) df.rows _

/-- Each data cell fits its column width. -/
theorem row_le_colWidths (df : DataFrame) (r : List String) (hr : r ∈ df.rows)
    (j : Nat) (hj : j < df.header.length) :
    (r.getD j "").length ≤ (colWidths df).getD j 0 := by
  rw [colWidths_getD df j hj]
  exact mem_le_foldr_max (fun r => (r.getD j "").length) df.rows _ r hr

/-- Every line of the rendering of a rectangular frame has the same length:
the table is fixed-width and column-aligned. -/
theorem to_string_lines_aligned (df : DataFrame) (hne : df.header ≠ [])
    (hrect : ∀ r ∈ df.rows, r.length = df.header.length) :
    ∀ line ∈ to_string_lines df, line.length = tableWidth df := by
  intro line hline
  have hwlen := colWidths_length df
  have hwsne : colWidths df ≠ [] := by
    intro h
    apply hne
    rw [h] at hwlen
    exact (List.length_eq_zero.mp hwlen.symm)
  unfold to_string_lines at hline
  unfold tableWidth
  rcases List.mem_cons.mp hline with rfl | hmem
  · exact renderRow_length _ _ hwsne (by rw [hwlen]) (fun j hj =>
      header_le_colWidths df j (by rwa [hwlen] at hj))
  · obtain ⟨r, hr, rfl⟩ := List.mem_map.mp hmem
    exact renderRow_length _ _ hwsne (by rw [hwlen, hrect r hr]) (fun j hj =>
      row_le_colWidths df r hr j (by rwa [hwlen] at hj))

/-- C6: after a successful parse, the CSV strategy renders the frame
truncated to its first 600 data rows; the handler serializes exactly that;
the rendered lines are the header line followed by one line per kept data
row with no row-index column; line count is 1 + min 600 (number of data
rows); and for a rectangular frame every line has the same width
(fixed-width, column-aligned). -/
theorem csv_strategy_truncation (s : String) (df : DataFrame)
    (hparse : read_csv s = .ok df)
    (hne : df.header ≠ [])
    (hrect : ∀ r ∈ df.rows, r.length = df.header.length) :
    csv_strategy s = .ok (to_string_noindex (df.head 600)) ∧
    (get_file_context (some "f.csv") (envCsv s)).1 =
      respOk (to_string_noindex (df.head 600)) ∧
    to_string_lines (df.head 600) =
      renderRow (colWidths (df.head 600)) df.header ::
        (df.rows.take 600).map (renderRow (colWidths (df.head 600))) ∧
    (to_string_lines (df.head 600)).length = 1 + min 600 df.rows.length ∧
    ∀ line ∈ to_string_lines (df.head 600),
      line.length = tableWidth (df.head 600) := by
  refine ⟨?_, ?_, rfl, ?_, ?_⟩
  · unfold csv_strategy
    rw [hparse]
    rfl
  · have hstep : get_file_context (some "f.csv") (envCsv s)
        = (match read_csv s with
           | .error e => (resp500 e, ⟨true, 1, 0, 0⟩)
           | .ok csv_data =>
             (respOk (to_string_noindex (csv_data.head 600)),
               ⟨true, 1, 0, 0⟩)) := rfl
    rw [hstep, hparse]
  · simp only [to_string_lines, DataFrame.head, List.length_cons,
      List.length_map, List.length_take]
    omega
  · exact to_string_lines_aligned (df.head 600) hne (by
      intro r hr
      exact hrect r (List.take_subset 600 df.rows hr))

/-- C6 witness: a two-column frame with one data row satisfies the
hypotheses, and the strategy renders it. -/
theorem csv_strategy_truncation_witness :
    csv_strategy "a,b\n1,2\n" =
      .ok (to_string_noindex (DataFrame.head ⟨["a", "b"], [["1", "2"]]⟩ 600)) :=
  (csv_strategy_truncation "a,b\n1,2\n" ⟨["a", "b"], [["1", "2"]]⟩ rfl
    (by decide) (by decide)).1

/-- A successful case-sensitive suffix match against a nonempty suffix
forces a nonempty subject. -/
theorem pyEndsWith_ne_empty (s suf : String) (h : pyEndsWith s suf = true)
    (hsuf : suf ≠ "") : s ≠ "" := by
  intro hs
  apply hsuf
  subst hs
  have hsfx : suf.data <:+ ("" : String).data :=
    List.isSuffixOf_iff_suffix.mp h
  have h0 : ("" : String).data = [] := rfl
  rw [h0] at hsfx
  have hnil : suf.data = [] :=
    List.length_eq_zero.mp (Nat.le_zero.mp (by simpa using hsfx.length_le))
  exact String.ext (hnil.trans h0.symm)

/-- C1 (code bug): when the blob store yields `["b.csv", "a.csv"]` in that
order, `get_files_list` returns the names unsorted, in store order —
`sort_keys=True` orders JSON object keys only, never array elements — so
the body differs from the alphabetical serialization the spec promises. -/
theorem get_files_list_not_sorted :
    get_files_list (Except.ok ["b.csv", "a.csv"]) =
      ⟨"[\n    \"b.csv\",\n    \"a.csv\"\n]", 200⟩ ∧
    jsonDumpsStringList ["a.csv", "b.csv"] =
      "[\n    \"a.csv\",\n    \"b.csv\"\n]" ∧
    (get_files_list (Except.ok ["b.csv", "a.csv"])).body ≠
      jsonDumpsStringList ["a.csv", "b.csv"] := by
  exact ⟨by decide, by decide, by decide⟩

/-- C2 (code bug): a successful CSV extraction answers 200 with body
`json.dumps(context_data)` — the bare JSON-encoded string — which differs
from the `\x7b"content": ...\x7d` object envelope the handler's own
docstring and the spec promise. -/
theorem context_body_is_bare_string :
    get_file_context (some "f.csv") (envCsv "h\nv") =
      (⟨"\"h\\nv\"", 200⟩, ⟨true, 1, 0, 0⟩) ∧
    jsonObjectContent "h\nv" = "\x7b\"content\": \"h\\nv\"\x7d" ∧
    (get_file_context (some "f.csv") (envCsv "h\nv")).1.body ≠
      jsonObjectContent "h\nv" := by
  exact ⟨by decide, by decide, by decide⟩

/-- C3 (code bug): on the audio path the temporary file is deleted only
after a successful transcription; when transcription raises, the handler
answers 500 and the `delete=False` temporary file is left behind. -/
theorem audio_temp_file_leak :
    get_file_context (some "f.mp3") envAudioFail =
      (resp500 "transcribe boom", ⟨true, 1, 0, 1⟩) ∧
    (get_file_context (some "f.mp3") envAudioFail).2.tempFiles = 1 ∧
    (get_file_context (some "f.mp3") envAudioOk).2.tempFiles = 0 := by
  exact ⟨by decide, by decide, by decide⟩

/-- C4 (code bug): `doc.close()` sits after the page loop, not in a
`finally`; when a page's `get_text` raises, the handler answers 500 with
the document handle still open.  The handle is closed on the success
path. -/
theorem pdf_handle_leak :
    get_file_context (some "f.pdf") envPdfPageFail =
      (resp500 "page boom", ⟨true, 1, 1, 0⟩) ∧
    (get_file_context (some "f.pdf") envPdfPageFail).2.openDocs = 1 ∧
    (get_file_context (some "f.pdf") (envPdf ["hello"])).2.openDocs = 0 := by
  exact ⟨by decide, by decide, by decide⟩

/-- C7: a missing or empty `file` parameter is rejected with status 400
and the missing-parameter message, before any blob client is constructed
or any download attempted — the response and final state are the same for
every environment. -/
theorem missing_file_param_400 (env : Env) :
    get_file_context none env = (respMissing, ⟨false, 0, 0, 0⟩) ∧
    get_file_context (some "") env = (respMissing, ⟨false, 0, 0, 0⟩) ∧
    respMissing.status = 400 ∧
    respMissing.body = "File name parameter is missing." :=
  ⟨rfl, rfl, rfl, rfl⟩

/-- C8: a nonempty file name whose case-sensitive suffix is none of
`.csv`, `.pdf`, `.mp3`, `.wav` is rejected with status 403 and the
unsupported-file-type message; the blob client has been constructed but no
download happens and no extraction strategy runs (no handle, no temp
file). -/
theorem unsupported_extension_403 (env : Env) (name : String)
    (h0 : name ≠ "")
    (h1 : pyEndsWith name ".csv" = false)
    (h2 : pyEndsWith name ".pdf" = false)
    (h3 : pyEndsWith name ".mp3" = false)
    (h4 : pyEndsWith name ".wav" = false) :
    get_file_context (some name) env = (respUnsupported, ⟨true, 0, 0, 0⟩) ∧
    respUnsupported.status = 403 ∧
    respUnsupported.body = "Unsupported file type." := by
  refine ⟨?_, rfl, rfl⟩
  simp [get_file_context, h0, h1, h2, h3, h4]

/-- C8 witness: `DATA.CSV` (upper-cased extension) is rejected with 403. -/
theorem unsupported_extension_403_witness :
    ("DATA.CSV" ≠ "" ∧ pyEndsWith "DATA.CSV" ".csv" = false ∧
      pyEndsWith "DATA.CSV" ".pdf" = false ∧
      pyEndsWith "DATA.CSV" ".mp3" = false ∧
      pyEndsWith "DATA.CSV" ".wav" = false) ∧
    get_file_context (some "DATA.CSV") envAllFail =
      (respUnsupported, ⟨true, 0, 0, 0⟩) :=
  ⟨by decide, (unsupported_extension_403 envAllFail "DATA.CSV" (by decide)
    (by decide) (by decide) (by decide) (by decide)).1⟩

/-- C9: for a supported extension, every exception raised during fetch or
strategy-specific parsing — text download, CSV parse, byte download, PDF
open, per-page extraction, transcription — is caught by the dispatcher's
`except` and answered with status 500 and body `"Error: " ++ str(e)`; a
single download is attempted (no retry) and no content is returned. -/
theorem fetch_or_parse_error_500 (env : Env) (name e s : String) :
    (pyEndsWith name ".csv" = true → env.downloadText name = .error e →
      get_file_context (some name) env = (resp500 e, ⟨true, 1, 0, 0⟩)) ∧
    (pyEndsWith name ".csv" = true → env.downloadText name = .ok s →
      read_csv s = .error e →
      get_file_context (some name) env = (resp500 e, ⟨true, 1, 0, 0⟩)) ∧
    (pyEndsWith name ".csv" = false → pyEndsWith name ".pdf" = true →
      env.downloadBytes name = .error e →
      get_file_context (some name) env = (resp500 e, ⟨true, 1, 0, 0⟩)) ∧
    (∀ bs, pyEndsWith name ".csv" = false → pyEndsWith name ".pdf" = true →
      env.downloadBytes name = .ok bs → env.openPdf bs = .error e →
      get_file_context (some name) env = (resp500 e, ⟨true, 1, 0, 0⟩)) ∧
    (∀ bs doc, pyEndsWith name ".csv" = false →
      pyEndsWith name ".pdf" = true →
      env.downloadBytes name = .ok bs → env.openPdf bs = .ok doc →
      pdfAccumE doc "" = .error e →
      get_file_context (some name) env = (resp500 e, ⟨true, 1, 1, 0⟩)) ∧
    (pyEndsWith name ".csv" = false → pyEndsWith name ".pdf" = false →
      (pyEndsWith name ".mp3" || pyEndsWith name ".wav") = true →
      env.downloadBytes name = .error e →
      get_file_context (some name) env = (resp500 e, ⟨true, 1, 0, 1⟩)) ∧
    (∀ bs, pyEndsWith name ".csv" = false → pyEndsWith name ".pdf" = false →
      (pyEndsWith name ".mp3" || pyEndsWith name ".wav") = true →
      env.downloadBytes name = .ok bs → env.transcribe bs = .error e →
      get_file_context (some name) env = (resp500 e, ⟨true, 1, 0, 1⟩)) ∧
    (resp500 e).status = 500 ∧ (resp500 e).body = "Error: " ++ e := by
  have hneAudio : (pyEndsWith name ".mp3" || pyEndsWith name ".wav") = true →
      name ≠ "" := by
    intro h
    rcases (by simpa using h :
        pyEndsWith name ".mp3" = true ∨ pyEndsWith name ".wav" = true) with
      h | h
    · exact pyEndsWith_ne_empty name ".mp3" h (by decide)
    · exact pyEndsWith_ne_empty name ".wav" h (by decide)
  refine ⟨?_, ?_, ?_, ?_, ?_, ?_, ?_, rfl, rfl⟩
  · intro hcsv hdl
    have hne := pyEndsWith_ne_empty name ".csv" hcsv (by decide)
    simp [get_file_context, hne, hcsv, hdl]
  · intro hcsv hdl hparse
    have hne := pyEndsWith_ne_empty name ".csv" hcsv (by decide)
    simp [get_file_context, hne, hcsv, hdl, hparse]
  · intro hcsv hpdf hdl
    have hne := pyEndsWith_ne_empty name ".pdf" hpdf (by decide)
    simp [get_file_context, hne, hcsv, hpdf, hdl]
  · intro bs hcsv hpdf hdl hopen
    have hne := pyEndsWith_ne_empty name ".pdf" hpdf (by decide)
    simp [get_file_context, hne, hcsv, hpdf, hdl, hopen]
  · intro bs doc hcsv hpdf hdl hopen hloop
    have hne := pyEndsWith_ne_empty name ".pdf" hpdf (by decide)
    simp [get_file_context, hne, hcsv, hpdf, hdl, hopen, hloop]
  · intro hcsv hpdf haud hdl
    have hne := hneAudio haud
    simp [get_file_context, hne, hcsv, hpdf, haud, hdl]
  · intro bs hcsv hpdf haud hdl htr
    have hne := hneAudio haud
    simp [get_file_context, hne, hcsv, hpdf, haud, hdl, htr]

/-- C9 witness: a CSV whose blob download raises is answered with 500 and
the error text, after exactly one download attempt. -/
theorem fetch_or_parse_error_500_witness :
    (pyEndsWith "a.csv" ".csv" = true ∧
      envAllFail.downloadText "a.csv" = Except.error "fail") ∧
    get_file_context (some "a.csv") envAllFail =
      (resp500 "fail", ⟨true, 1, 0, 0⟩) :=
  ⟨⟨by decide, rfl⟩,
    (fetch_or_parse_error_500 envAllFail "a.csv" "fail" "").1 (by decide) rfl⟩

/-- C10: a truthy (non-empty) `name` query parameter wins over any JSON
body — the response is the greeting for the query value whatever the body
holds; a missing and an empty query parameter behave identically, falling
through to the body; with no query name, a well-formed body's non-empty
`name` is greeted; and a malformed JSON body together with no query name
yields the default message at status 200. -/
theorem bizz_lab_name_precedence (n m : String)
    (body : Except Unit (Option String)) :
    (n ≠ "" → bizz_lab_func (some n) body =
      ⟨"Hello, " ++ n ++ ". This HTTP triggered function executed successfully.",
        200⟩) ∧
    bizz_lab_func none body = bizz_lab_func (some "") body ∧
    (body = .ok (some m) → m ≠ "" → bizz_lab_func none body =
      ⟨"Hello, " ++ m ++ ". This HTTP triggered function executed successfully.",
        200⟩) ∧
    bizz_lab_func none (.error ()) =
      ⟨"This HTTP triggered function executed successfully. Pass a name in the query string or in the request body for a personalized response.",
        200⟩ ∧
    (bizz_lab_func none (.error ())).status = 200 := by
  refine ⟨?_, ?_, ?_, rfl, rfl⟩
  · intro hn
    simp [bizz_lab_func, truthy, hn]
  · cases body with
    | error u => rfl
    | ok b => rfl
  · intro hb hm
    subst hb
    simp [bizz_lab_func, truthy, hm]

/-- C10 witness: `name=Ada` in the query beats `name=Bob` in the body. -/
theorem bizz_lab_name_precedence_witness :
    ("Ada" ≠ "") ∧
    bizz_lab_func (some "Ada") (Except.ok (some "Bob")) =
      ⟨"Hello, Ada. This HTTP triggered function executed successfully.",
        200⟩ :=
  ⟨by decide,
    (bizz_lab_name_precedence "Ada" "x" (Except.ok (some "Bob"))).1 (by decide)⟩

end BizzLab

